import Mathlib

/-!
Shallow embedding of 3dsconv.py (CCI → CIA converter) and verification of
its specification claims.  Python byte strings are modelled as `List Nat`
(each element a byte value), Python ints as `Nat` (with explicit `% 2^w`
where wrapping matters), and the streaming loop's signed `left` variable as
`Int`.  Library calls (hashlib.sha256, pyaes AES-CTR block encryption) are
modelled as abstract function parameters: the claims are about how this
program uses them, not about their internals.
-/

set_option maxRecDepth 8000

namespace ThreeDSConv

/-- Bit rotation, embedded from `rol` in 3dsconv.py:
`(val << r_bits % max_bits) & (2**max_bits - 1) |
 ((val & (2**max_bits - 1)) >> (max_bits - (r_bits % max_bits)))`. -/
def rol (val r_bits max_bits : Nat) : Nat :=
  ((val <<< (r_bits % max_bits)) &&& (2 ^ max_bits - 1)) |||
    ((val &&& (2 ^ max_bits - 1)) >>> (max_bits - r_bits % max_bits))

/-- Spec-side mathematical left rotation over a 128-bit unsigned field:
the low bits of `v` are moved up by `r` places (mod `2^128`) and the high
`r` bits wrap around to the bottom.  Written from the spec's words, to be
compared with the source's `rol`. -/
def rotateLeft128 (v r : Nat) : Nat :=
  (v % 2 ^ 128) * 2 ^ (r % 128) % 2 ^ 128 + (v % 2 ^ 128) / 2 ^ (128 - r % 128)

/-- The source's bit-twiddling `rol` agrees with the mathematical 128-bit
left rotation, for every input value (the masks inside `rol` reduce the
value modulo `2^128`). -/
theorem rol_eq_rotateLeft128 (v r : Nat) (hr : r < 128) :
    rol v r 128 = rotateLeft128 v r := by
  have hrm : r % 128 = r := Nat.mod_eq_of_lt hr
  unfold rol rotateLeft128
  rw [hrm, Nat.shiftLeft_eq, Nat.and_pow_two_sub_one_eq_mod,
    Nat.and_pow_two_sub_one_eq_mod, Nat.shiftRight_eq_div_pow]
  set A := v * 2 ^ r % 2 ^ 128 with hA
  set B := v % 2 ^ 128 / 2 ^ (128 - r) with hB
  have hdvd : 2 ^ r ∣ A := by
    rw [hA]
    rw [Nat.dvd_mod_iff (Nat.pow_dvd_pow 2 (Nat.le_of_lt hr))]
    exact dvd_mul_left (2 ^ r) v
  have hBlt : B < 2 ^ r := by
    rw [hB]
    have h128 : (2 : Nat) ^ (128 - r) * 2 ^ r = 2 ^ 128 := by
      rw [← pow_add]
      congr 1
      omega
    apply Nat.div_lt_of_lt_mul
    calc v % 2 ^ 128 < 2 ^ 128 := Nat.mod_lt _ (by positivity)
      _ = 2 ^ (128 - r) * 2 ^ r := h128.symm
  have hsplit : A = 2 ^ r * (A / 2 ^ r) := (Nat.mul_div_cancel' hdvd).symm
  have hor : A ||| B = A + B := by
    conv_lhs => rw [hsplit]
    rw [← Nat.mul_add_lt_is_or hBlt]
    rw [← hsplit]
  rw [hor]
  congr 1
  rw [hA, Nat.mod_mul_mod]

/-- Content-decryption key derivation, embedded from 3dsconv.py:
`key = rol((rol(orig_ncch_key, 2, 128) ^ key_y) + 0x1FF9E9AAC5FE0408024591DC5D52768A, 87, 128)`. -/
def deriveKey (orig_ncch_key key_y : Nat) : Nat :=
  rol ((rol orig_ncch_key 2 128 ^^^ key_y) + 0x1FF9E9AAC5FE0408024591DC5D52768A) 87 128

/-- Big-endian byte serialisation of a natural number into a fixed number
of bytes, as Python's `int.to_bytes(len, byteorder='big')` (truncating high
bits, which the program never relies on). -/
def natToBytesBE : Nat → Nat → List Nat
  | 0, _ => []
  | len + 1, n => natToBytesBE len (n / 256) ++ [n % 256]

/-- Key selection for an encrypted partition, embedded from 3dsconv.py:
`zerokey_encrypted = encryption_bitmask & 0x1`; if set the key is
`ZEROKEY = bytes(0x10)`, otherwise the scrambled key serialised with
`.to_bytes(0x10, byteorder='big')`. -/
def titleKeyBytes (encryption_bitmask orig_ncch_key key_y : Nat) : List Nat :=
  if encryption_bitmask &&& 0x1 ≠ 0 then List.replicate 0x10 0
  else natToBytesBE 0x10 (deriveKey orig_ncch_key key_y)

/-- C1: for every 128-bit originalKey and keyY, the derived
content-decryption key is
`rotateLeft((rotateLeft(originalKey, 2, 128) XOR keyY) + 0x1FF9E9AAC5FE0408024591DC5D52768A mod 2^128, 87, 128)`
over a 128-bit unsigned field with wrapping addition; and when bit 0 of
the partition's encryption bitmask (zero-key mode) is set, the key used is
the all-zero 128-bit value instead. -/
theorem key_derivation_correct (bm orig_ncch_key key_y : Nat)
    (h1 : orig_ncch_key < 2 ^ 128) (h2 : key_y < 2 ^ 128) :
    (bm &&& 0x1 = 0 →
      titleKeyBytes bm orig_ncch_key key_y =
        natToBytesBE 0x10
          (rotateLeft128
            ((rotateLeft128 orig_ncch_key 2 ^^^ key_y) +
              0x1FF9E9AAC5FE0408024591DC5D52768A) 87)) ∧
    (bm &&& 0x1 ≠ 0 →
      titleKeyBytes bm orig_ncch_key key_y = List.replicate 0x10 0) := by
  constructor
  · intro hz
    rw [titleKeyBytes, if_neg (by simp [hz])]
    rw [deriveKey, rol_eq_rotateLeft128 _ 2 (by norm_num),
      rol_eq_rotateLeft128 _ 87 (by norm_num)]
  · intro hz
    rw [titleKeyBytes, if_pos hz]

/-- Witness for C1 at a concrete input. -/
theorem key_derivation_correct_witness :
    (1 : Nat) < 2 ^ 128 ∧ (2 : Nat) < 2 ^ 128 ∧
    (((0 : Nat) &&& 0x1 = 0 →
      titleKeyBytes 0 1 2 =
        natToBytesBE 0x10
          (rotateLeft128
            ((rotateLeft128 1 2 ^^^ 2) +
              0x1FF9E9AAC5FE0408024591DC5D52768A) 87)) ∧
    ((0 : Nat) &&& 0x1 ≠ 0 →
      titleKeyBytes 0 1 2 = List.replicate 0x10 0)) :=
  ⟨by norm_num, by norm_num, key_derivation_correct 0 1 2 (by norm_num) (by norm_num)⟩

/-- Patch step, embedded from 3dsconv.py:
`extheader_list = list(extheader); extheader_list[0xD] |= 2;
extheader = bytes(extheader_list)`. -/
def patchExtheader (extheader : List Nat) : List Nat :=
  extheader.set 0xD (extheader.getD 0xD 0 ||| 2)

/-- Python slice assignment `l[start:stop] = repl` for an in-range slice
replaced by a list of the slice's own length. -/
def splice (l : List Nat) (start stop : Nat) (repl : List Nat) : List Nat :=
  l.take start ++ repl ++ l.drop stop

/-- Partition-header copy written into the destination container, embedded
from 3dsconv.py: `ncch_header[0x160:0x180] = list(new_extheader_hash)`
where `new_extheader_hash = hashlib.sha256(extheader).digest()` is computed
over the patched extended header. -/
def patchedNcchHeader (sha : List Nat → List Nat) (ncch_header extheader : List Nat) :
    List Nat :=
  splice ncch_header 0x160 0x180 (sha (patchExtheader extheader))

/-- C2: the patch step ORs the bit 0x2 into exactly the byte at offset 0xD
of the decrypted extended header, leaving every other byte (and the length)
unchanged, and the SHA-256 digest recomputed over the patched 0x400-byte
extended header is what the program places at offset 0x160 (through 0x180)
of the partition-header copy written into the destination container,
leaving the copy's other bytes unchanged. -/
theorem extheader_patch_and_digest (sha : List Nat → List Nat)
    (extheader ncch_header : List Nat)
    (heh : extheader.length = 0x400) (hhdr : ncch_header.length = 0x200)
    (hsha : (sha (patchExtheader extheader)).length = 0x20) :
    (patchExtheader extheader).length = 0x400 ∧
    (patchExtheader extheader)[0xD]? = some (extheader.getD 0xD 0 ||| 2) ∧
    (∀ i, i ≠ 0xD → (patchExtheader extheader)[i]? = extheader[i]?) ∧
    ((patchedNcchHeader sha ncch_header extheader).drop 0x160).take 0x20 =
      sha (patchExtheader extheader) ∧
    (patchedNcchHeader sha ncch_header extheader).take 0x160 =
      ncch_header.take 0x160 ∧
    (patchedNcchHeader sha ncch_header extheader).drop 0x180 =
      ncch_header.drop 0x180 ∧
    (patchedNcchHeader sha ncch_header extheader).length = 0x200 := by
  have htake : (ncch_header.take 0x160).length = 0x160 := by
    rw [List.length_take, hhdr]
    decide
  refine ⟨?_, ?_, ?_, ?_, ?_, ?_, ?_⟩
  · simp [patchExtheader, heh]
  · rw [patchExtheader]
    exact List.getElem?_set_self (by omega)
  · intro i hi
    rw [patchExtheader]
    exact List.getElem?_set_ne (fun h => hi h.symm)
  · rw [patchedNcchHeader, splice, List.append_assoc, List.drop_left' htake,
      List.take_left' hsha]
  · rw [patchedNcchHeader, splice, List.append_assoc, List.take_left' htake]
  · rw [patchedNcchHeader, splice]
    apply List.drop_left'
    rw [List.length_append, htake, hsha]
  · rw [patchedNcchHeader, splice]
    simp [List.length_append, List.length_take, List.length_drop, hhdr, hsha]

/-- Witness for C2 at concrete inputs. -/
theorem extheader_patch_and_digest_witness :
    (List.replicate 0x400 0).length = 0x400 ∧
    (List.replicate 0x200 7).length = 0x200 ∧
    ((fun _ : List Nat => List.replicate 0x20 1)
        (patchExtheader (List.replicate 0x400 0))).length = 0x20 ∧
    ((patchExtheader (List.replicate 0x400 0)).length = 0x400 ∧
      (patchExtheader (List.replicate 0x400 0))[0xD]? =
        some ((List.replicate 0x400 0).getD 0xD 0 ||| 2) ∧
      (∀ i, i ≠ 0xD →
        (patchExtheader (List.replicate 0x400 0))[i]? =
          (List.replicate 0x400 (0 : Nat))[i]?) ∧
      ((patchedNcchHeader (fun _ => List.replicate 0x20 1)
          (List.replicate 0x200 7) (List.replicate 0x400 0)).drop 0x160).take 0x20 =
        (fun _ : List Nat => List.replicate 0x20 1)
          (patchExtheader (List.replicate 0x400 0)) ∧
      (patchedNcchHeader (fun _ => List.replicate 0x20 1)
          (List.replicate 0x200 7) (List.replicate 0x400 0)).take 0x160 =
        (List.replicate 0x200 7).take 0x160 ∧
      (patchedNcchHeader (fun _ => List.replicate 0x20 1)
          (List.replicate 0x200 7) (List.replicate 0x400 0)).drop 0x180 =
        (List.replicate 0x200 7).drop 0x180 ∧
      (patchedNcchHeader (fun _ => List.replicate 0x20 1)
          (List.replicate 0x200 7) (List.replicate 0x400 0)).length = 0x200) :=
  ⟨by simp, by simp, by simp,
    extheader_patch_and_digest (fun _ => List.replicate 0x20 1)
      (List.replicate 0x400 0) (List.replicate 0x200 7)
      (by simp) (by simp) (by simp)⟩

/-- Big-endian value of a byte list, as Python's
`int(binascii.hexlify(b), 16)` for a byte string `b`. -/
def bytesToNatBE (l : List Nat) : Nat := l.foldl (fun acc b => acc * 256 + b) 0

/-- Folding the big-endian accumulator starting from `acc` shifts `acc`
past the whole list. -/
theorem foldl_be_acc (l : List Nat) (acc : Nat) :
    l.foldl (fun a b => a * 256 + b) acc =
      acc * 256 ^ l.length + bytesToNatBE l := by
  induction l generalizing acc with
  | nil => simp [bytesToNatBE]
  | cons b l ih =>
    rw [bytesToNatBE, List.foldl_cons, List.foldl_cons, ih, ih (0 * 256 + b)]
    ring_nf
    rw [List.length_cons]
    ring

/-- Value of a concatenation of byte strings. -/
theorem bytesToNatBE_append (a b : List Nat) :
    bytesToNatBE (a ++ b) = bytesToNatBE a * 256 ^ b.length + bytesToNatBE b := by
  rw [bytesToNatBE, List.foldl_append, ← bytesToNatBE, foldl_be_acc]

/-- Extended-header counter, embedded from 3dsconv.py:
`ctr_extheader_v = int(title_id_hex + '0100000000000000', 16)`.  The
16-hex-digit title-identifier string followed by 16 more hex digits yields
the title-identifier value shifted by `16^16` plus the suffix value. -/
def ctr_extheader_v (tid : Nat) : Nat := tid * 16 ^ 16 + 0x0100000000000000

/-- File-table (ExeFS) counter, embedded from 3dsconv.py:
`ctr_exefs_v = int(title_id_hex + '0200000000000000', 16)`. -/
def ctr_exefs_v (tid : Nat) : Nat := tid * 16 ^ 16 + 0x0200000000000000

/-- Icon counter, embedded from 3dsconv.py:
`ctr_exefs_icon_v = ctr_exefs_v + (exefs_icon_offset // 0x10) + 0x20`. -/
def ctr_exefs_icon_v (tid icon_offset : Nat) : Nat :=
  ctr_exefs_v tid + icon_offset / 0x10 + 0x20

/-- C3: for an 8-byte title identifier, the extended-header counter is the
128-bit big-endian value of the identifier followed by the bytes of
`0x0100000000000000`, the file-table counter is the identifier followed by
`0x0200000000000000`, and the icon counter is the file-table counter plus
`iconByteOffset / 16 + 0x20`. -/
theorem counter_construction (tid_bytes : List Nat) (icon_offset : Nat)
    (h8 : tid_bytes.length = 8) :
    ctr_extheader_v (bytesToNatBE tid_bytes) =
      bytesToNatBE (tid_bytes ++ [0x01, 0, 0, 0, 0, 0, 0, 0]) ∧
    ctr_exefs_v (bytesToNatBE tid_bytes) =
      bytesToNatBE (tid_bytes ++ [0x02, 0, 0, 0, 0, 0, 0, 0]) ∧
    ctr_exefs_icon_v (bytesToNatBE tid_bytes) icon_offset =
      ctr_exefs_v (bytesToNatBE tid_bytes) + icon_offset / 16 + 0x20 := by
  refine ⟨?_, ?_, rfl⟩
  · rw [bytesToNatBE_append, ctr_extheader_v]
    norm_num [bytesToNatBE]
  · rw [bytesToNatBE_append, ctr_exefs_v]
    norm_num [bytesToNatBE]

/-- Witness for C3 at a concrete title identifier. -/
theorem counter_construction_witness :
    ([0, 4, 0, 0, 0, 3, 0, 0] : List Nat).length = 8 ∧
    (ctr_extheader_v (bytesToNatBE [0, 4, 0, 0, 0, 3, 0, 0]) =
      bytesToNatBE ([0, 4, 0, 0, 0, 3, 0, 0] ++ [0x01, 0, 0, 0, 0, 0, 0, 0]) ∧
    ctr_exefs_v (bytesToNatBE [0, 4, 0, 0, 0, 3, 0, 0]) =
      bytesToNatBE ([0, 4, 0, 0, 0, 3, 0, 0] ++ [0x02, 0, 0, 0, 0, 0, 0, 0]) ∧
    ctr_exefs_icon_v (bytesToNatBE [0, 4, 0, 0, 0, 3, 0, 0]) 0x100 =
      ctr_exefs_v (bytesToNatBE [0, 4, 0, 0, 0, 3, 0, 0]) + 0x100 / 16 + 0x20) :=
  ⟨by decide, counter_construction [0, 4, 0, 0, 0, 3, 0, 0] 0x100 (by decide)⟩

/-- One keystream byte of AES-CTR mode as used through pyaes
(`pyaes.Counter(initial_value=c)` with `AESModeOfOperationCTR`): block `i`
of the keystream is the block cipher applied to the initial counter
advanced by `i`, wrapping at `2^128`, and bytes are taken from the
16-byte block in order.  `E` abstracts AES block encryption under the
fixed key. -/
def ctrKeystreamByte (E : Nat → List Nat) (ctr i : Nat) : Nat :=
  (E ((ctr + i / 16) % 2 ^ 128)).getD (i % 16) 0

/-- XOR of a byte list against keystream bytes starting at byte index `i`. -/
def ctrXorFrom (ks : Nat → Nat) : Nat → List Nat → List Nat
  | _, [] => []
  | i, b :: rest => (b ^^^ ks i) :: ctrXorFrom ks (i + 1) rest

/-- The counter-mode transform which 3dsconv.py applies (as both `encrypt`
and `decrypt`, interchangeably) to the extended header, the file-table
header and the icon. -/
def ctrTransform (E : Nat → List Nat) (ctr : Nat) (data : List Nat) : List Nat :=
  ctrXorFrom (ctrKeystreamByte E ctr) 0 data

/-- XORing against the same keystream twice, from any starting index, is
the identity. -/
theorem ctrXorFrom_involutive (ks : Nat → Nat) (data : List Nat) :
    ∀ i, ctrXorFrom ks i (ctrXorFrom ks i data) = data := by
  induction data with
  | nil => intro i; rfl
  | cons b rest ih =>
    intro i
    rw [ctrXorFrom, ctrXorFrom, ih]
    rw [Nat.xor_assoc, Nat.xor_self, Nat.xor_zero]

/-- C8: the counter-mode transform is involutive: for every block cipher,
128-bit initial counter and byte payload,
`transform(k, c, transform(k, c, data)) = data`, so the same operation both
encrypts and decrypts. -/
theorem ctrTransform_involutive (E : Nat → List Nat) (ctr : Nat) (data : List Nat) :
    ctrTransform E ctr (ctrTransform E ctr data) = data :=
  ctrXorFrom_involutive (ctrKeystreamByte E ctr) data 0

/-- Encryption decision, embedded from 3dsconv.py:
`encrypted = not (encryption_bitmask & 0x4 or args.ignore_encryption)`
(Python truthiness: a nonzero int is true). -/
def isEncrypted (encryption_bitmask : Nat) (ignore_encryption : Bool) : Bool :=
  !(decide (encryption_bitmask &&& 0x4 ≠ 0) || ignore_encryption)

/-- Key-material step, embedded from 3dsconv.py: the key (zero key or
scrambled key) is computed only inside `if encrypted:`; otherwise no key is
derived at all. -/
def maybeTitleKey (encrypted : Bool) (encryption_bitmask orig_ncch_key key_y : Nat) :
    Option (List Nat) :=
  if encrypted then some (titleKeyBytes encryption_bitmask orig_ncch_key key_y) else none

/-- Extended-header processing, embedded from 3dsconv.py: decrypt with the
extended-header counter when `encrypted`, patch byte 0xD, re-encrypt with
the same counter when `encrypted`. -/
def processExtheader (E : Nat → List Nat) (ctr : Nat) (encrypted : Bool)
    (extheader : List Nat) : List Nat :=
  let eh := if encrypted then ctrTransform E ctr extheader else extheader
  let patched := patchExtheader eh
  if encrypted then ctrTransform E ctr patched else patched

/-- C9: a partition is treated as encrypted iff bit 2 (0x4, no-crypto) of
the encryption bitmask is clear and the ignore-encryption option is unset;
when bits 0 and 2 are both set, no key is derived and the extended header
is only patched, never decrypted or re-encrypted — the no-crypto bit takes
precedence over the zerokey bit. -/
theorem no_crypto_precedence (bm : Nat) (ig : Bool) (E : Nat → List Nat)
    (ctr orig_ncch_key key_y : Nat) (extheader : List Nat) :
    (isEncrypted bm ig = true ↔ (bm &&& 0x4 = 0 ∧ ig = false)) ∧
    (bm &&& 0x1 ≠ 0 → bm &&& 0x4 ≠ 0 →
      maybeTitleKey (isEncrypted bm ig) bm orig_ncch_key key_y = none ∧
      processExtheader E ctr (isEncrypted bm ig) extheader =
        patchExtheader extheader) := by
  constructor
  · cases ig <;> simp [isEncrypted]
  · intro _ h4
    have henc : isEncrypted bm ig = false := by
      simp [isEncrypted, h4]
    rw [henc]
    exact ⟨rfl, rfl⟩

/-- Witness for C9 at a concrete bitmask with bits 0 and 2 both set. -/
theorem no_crypto_precedence_witness :
    ((isEncrypted 0x5 false = true ↔ ((0x5 : Nat) &&& 0x4 = 0 ∧ false = false)) ∧
    ((0x5 : Nat) &&& 0x1 ≠ 0 → (0x5 : Nat) &&& 0x4 ≠ 0 →
      maybeTitleKey (isEncrypted 0x5 false) 0x5 1 2 = none ∧
      processExtheader (fun _ => List.replicate 16 0) 0 (isEncrypted 0x5 false)
          [9, 9, 9] = patchExtheader [9, 9, 9])) :=
  no_crypto_precedence 0x5 false (fun _ => List.replicate 16 0) 0 1 2 [9, 9, 9]

/-- Python `bytes.rstrip(b'\x5c0')`: remove trailing zero bytes. -/
def dropTrailingZeros (l : List Nat) : List Nat :=
  (l.reverse.dropWhile (fun b => b = 0)).reverse

/-- The byte values of the literal name tag `icon` compared against the
zero-trimmed 8-byte name field. -/
def iconNameBytes : List Nat := [0x69, 0x63, 0x6F, 0x6E]

/-- Little-endian 32-bit value read at a byte offset, as
`struct.unpack('<I', ...)`. -/
def u32LEAt (l : List Nat) (off : Nat) : Nat :=
  l.getD off 0 + l.getD (off + 1) 0 * 256 + l.getD (off + 2) 0 * 256 ^ 2 +
    l.getD (off + 3) 0 * 256 ^ 3

/-- Zero-trimmed 8-byte name of file-table header entry `n`, embedded from
`exefs_file_header[header_num * 0x10:0x8 + (header_num * 0x10)].rstrip(b'\x5c0')`. -/
def exefsEntryName (hdr : List Nat) (n : Nat) : List Nat :=
  dropTrailingZeros ((hdr.drop (n * 0x10)).take 8)

/-- The `for header_num in range(0, 4)` scan with `break` on the first
entry named `icon`, embedded from 3dsconv.py; `fuel` counts the entries
still to scan. -/
def findIconFrom (hdr : List Nat) : Nat → Nat → Option Nat
  | _, 0 => none
  | n, fuel + 1 =>
    if exefsEntryName hdr n = iconNameBytes then some (u32LEAt hdr (0x8 + n * 0x10))
    else findIconFrom hdr (n + 1) fuel

/-- Result of the icon scan over the (decrypted) 0x40-byte file-table
header: the declared offset of the first entry named `icon`, if any. -/
def findIconOffset (hdr : List Nat) : Option Nat := findIconFrom hdr 0 4

/-- Absolute position at which the icon resource is read, embedded from
3dsconv.py: after reading the 0x40-byte file-table header the stream is at
`exefs_pos + 0x40`, and the code does
`rom.seek(exefs_icon_offset + 0x200 - 0x40, 1)` (a relative seek). -/
def iconReadPos (exefs_pos icon_offset : Nat) : Nat :=
  exefs_pos + 0x40 + (icon_offset + 0x200 - 0x40)

/-- File-scoped failure classification of the per-file guard sequence in
`main` (each aborts the file with `continue` before the destination file
is opened). -/
inductive ConvError where
  | formatNCSD
  | formatNCCH
  | cryptoUnavailable
  | badHash
  | iconMissing
deriving DecidableEq

/-- The NCSD magic bytes checked at file offset 0x100. -/
def magicNCSD : List Nat := [0x4E, 0x43, 0x53, 0x44]

/-- The NCCH magic bytes checked at partition offset 0x100. -/
def magicNCCH : List Nat := [0x4E, 0x43, 0x43, 0x48]

/-- Per-file guard sequence of `main` in 3dsconv.py, in source order:
missing NCSD magic, missing NCCH magic, encrypted with no usable key,
extended-header digest mismatch without `--ignore-bad-hashes`, and icon
not found in the file table.  Each failing guard executes `continue`; the
destination file is opened (and hence produced) only after all five, so
the conversion produces output exactly when the outcome is `none`. -/
def convertOutcome (ncsd_magic ncch_magic : List Nat) (encrypted key_available : Bool)
    (extheader_hash ncch_extheader_hash : List Nat) (ignore_bad_hashes : Bool)
    (exefs_file_header : List Nat) : Option ConvError :=
  if ncsd_magic ≠ magicNCSD then some ConvError.formatNCSD
  else if ncch_magic ≠ magicNCCH then some ConvError.formatNCCH
  else if encrypted = true ∧ key_available = false then some ConvError.cryptoUnavailable
  else if extheader_hash ≠ ncch_extheader_hash ∧ ignore_bad_hashes = false then
    some ConvError.badHash
  else if findIconOffset exefs_file_header = none then some ConvError.iconMissing
  else none

/-- C4: when the SHA-256 of the (decrypted) extended header differs from
the 32-byte stored digest, the file is rejected (no destination file)
unless the ignore-bad-hashes override is set, in which case conversion
continues and — all later guards passing — a destination file is
produced anyway. -/
theorem extheader_hash_gating (extheader_hash ncch_extheader_hash : List Nat)
    (encrypted key_available : Bool) (exefs_file_header : List Nat)
    (hka : ¬(encrypted = true ∧ key_available = false))
    (hmm : extheader_hash ≠ ncch_extheader_hash) :
    (∀ ig : Bool, ig = false →
      convertOutcome magicNCSD magicNCCH encrypted key_available
        extheader_hash ncch_extheader_hash ig exefs_file_header =
          some ConvError.badHash) ∧
    (∀ ig : Bool, ig = true → findIconOffset exefs_file_header ≠ none →
      convertOutcome magicNCSD magicNCCH encrypted key_available
        extheader_hash ncch_extheader_hash ig exefs_file_header = none) := by
  constructor
  · intro ig hig
    subst hig
    rw [convertOutcome, if_neg (by simp), if_neg (by simp), if_neg hka,
      if_pos ⟨hmm, rfl⟩]
  · intro ig hig hicon
    subst hig
    rw [convertOutcome, if_neg (by simp), if_neg (by simp), if_neg hka,
      if_neg (by simp), if_neg hicon]

/-- Witness for C4 at concrete inputs: a one-byte hash mismatch and a
file table whose first entry is named `icon`. -/
theorem extheader_hash_gating_witness :
    ¬(false = true ∧ false = false) ∧ ([1] : List Nat) ≠ [2] ∧
    ((∀ ig : Bool, ig = false →
      convertOutcome magicNCSD magicNCCH false false [1] [2] ig
        [0x69, 0x63, 0x6F, 0x6E, 0, 0, 0, 0, 0, 0, 0, 0, 0, 0, 0, 0] =
          some ConvError.badHash) ∧
    (∀ ig : Bool, ig = true →
      findIconOffset [0x69, 0x63, 0x6F, 0x6E, 0, 0, 0, 0, 0, 0, 0, 0, 0, 0, 0, 0] ≠
        none →
      convertOutcome magicNCSD magicNCCH false false [1] [2] ig
        [0x69, 0x63, 0x6F, 0x6E, 0, 0, 0, 0, 0, 0, 0, 0, 0, 0, 0, 0] = none)) :=
  ⟨by simp, by simp,
    extheader_hash_gating [1] [2] false false
      [0x69, 0x63, 0x6F, 0x6E, 0, 0, 0, 0, 0, 0, 0, 0, 0, 0, 0, 0]
      (by simp) (by simp)⟩

/-- C7 counterexample: the icon resource is not read starting 0x1C0 bytes
before the entry's declared offset; at file-table position 0x2000 and
declared offset 0x1000 the read starts at 0x3200, not 0x2E40.  It starts
0x200 bytes after the declared offset instead. -/
theorem icon_read_position_counterexample :
    iconReadPos 0x2000 0x1000 ≠ 0x2000 + 0x1000 - 0x1C0 ∧
    iconReadPos 0x2000 0x1000 = 0x2000 + 0x1000 + 0x200 := by
  constructor <;> decide

/-- C7 (amended): the scan inspects up to four fixed-size file-table
header entries and returns the declared offset of the first one whose
zero-trimmed 8-byte name equals `icon`; the 0x36C0-byte resource is read
starting 0x200 bytes after the declared offset (relative to the file-table
start); when no entry matches, the scan yields nothing and the file is
rejected with no destination file produced. -/
theorem icon_extraction_amended (hdr : List Nat) (exefs_pos off : Nat) :
    (findIconOffset hdr = none ↔ ∀ n, n < 4 → exefsEntryName hdr n ≠ iconNameBytes) ∧
    (∀ n, n < 4 → exefsEntryName hdr n = iconNameBytes →
      (∀ m, m < n → exefsEntryName hdr m ≠ iconNameBytes) →
      findIconOffset hdr = some (u32LEAt hdr (0x8 + n * 0x10))) ∧
    iconReadPos exefs_pos off = exefs_pos + off + 0x200 ∧
    (∀ (sd ch ehh sth : List Nat) (enc ka ig : Bool),
      findIconOffset hdr = none →
      convertOutcome sd ch enc ka ehh sth ig hdr ≠ none) := by
  have hexpand : findIconOffset hdr =
      (if exefsEntryName hdr 0 = iconNameBytes then some (u32LEAt hdr 0x8)
       else if exefsEntryName hdr 1 = iconNameBytes then some (u32LEAt hdr 0x18)
       else if exefsEntryName hdr 2 = iconNameBytes then some (u32LEAt hdr 0x28)
       else if exefsEntryName hdr 3 = iconNameBytes then some (u32LEAt hdr 0x38)
       else none) := rfl
  refine ⟨?_, ?_, ?_, ?_⟩
  · rw [hexpand]
    constructor
    · intro h
      split_ifs at h with h0 h1 h2 h3
      intro n hn
      interval_cases n
      exacts [h0, h1, h2, h3]
    · intro h
      have h0 := h 0 (by norm_num)
      have h1 := h 1 (by norm_num)
      have h2 := h 2 (by norm_num)
      have h3 := h 3 (by norm_num)
      simp [h0, h1, h2, h3]
  · intro n hn hmatch hfirst
    interval_cases n
    · rw [hexpand, if_pos hmatch]
    · rw [hexpand, if_neg (hfirst 0 (by norm_num)), if_pos hmatch]
    · rw [hexpand, if_neg (hfirst 0 (by norm_num)),
        if_neg (hfirst 1 (by norm_num)), if_pos hmatch]
    · rw [hexpand, if_neg (hfirst 0 (by norm_num)),
        if_neg (hfirst 1 (by norm_num)), if_neg (hfirst 2 (by norm_num)),
        if_pos hmatch]
  · rw [iconReadPos]
    omega
  · intro sd ch ehh sth enc ka ig hnone
    rw [convertOutcome]
    split_ifs with a b c d
    all_goals exact Option.some_ne_none _

/-- Witness for C7 (amended) at a concrete file-table header whose second
entry is named `icon`. -/
theorem icon_extraction_amended_witness :
    (findIconOffset
        ([0x62, 0x61, 0x6E, 0x6E, 0x65, 0x72, 0, 0, 0x44, 0x33, 0x22, 0x11,
          0, 0, 0, 0, 0x69, 0x63, 0x6F, 0x6E, 0, 0, 0, 0, 0x10, 0, 0, 0,
          0, 0, 0, 0]) = none ↔
      ∀ n, n < 4 →
        exefsEntryName
          ([0x62, 0x61, 0x6E, 0x6E, 0x65, 0x72, 0, 0, 0x44, 0x33, 0x22, 0x11,
            0, 0, 0, 0, 0x69, 0x63, 0x6F, 0x6E, 0, 0, 0, 0, 0x10, 0, 0, 0,
            0, 0, 0, 0]) n ≠ iconNameBytes) ∧
    (∀ n, n < 4 →
      exefsEntryName
        ([0x62, 0x61, 0x6E, 0x6E, 0x65, 0x72, 0, 0, 0x44, 0x33, 0x22, 0x11,
          0, 0, 0, 0, 0x69, 0x63, 0x6F, 0x6E, 0, 0, 0, 0, 0x10, 0, 0, 0,
          0, 0, 0, 0]) n = iconNameBytes →
      (∀ m, m < n →
        exefsEntryName
          ([0x62, 0x61, 0x6E, 0x6E, 0x65, 0x72, 0, 0, 0x44, 0x33, 0x22, 0x11,
            0, 0, 0, 0, 0x69, 0x63, 0x6F, 0x6E, 0, 0, 0, 0, 0x10, 0, 0, 0,
            0, 0, 0, 0]) m ≠ iconNameBytes) →
      findIconOffset
        ([0x62, 0x61, 0x6E, 0x6E, 0x65, 0x72, 0, 0, 0x44, 0x33, 0x22, 0x11,
          0, 0, 0, 0, 0x69, 0x63, 0x6F, 0x6E, 0, 0, 0, 0, 0x10, 0, 0, 0,
          0, 0, 0, 0]) = some
        (u32LEAt
          ([0x62, 0x61, 0x6E, 0x6E, 0x65, 0x72, 0, 0, 0x44, 0x33, 0x22, 0x11,
            0, 0, 0, 0, 0x69, 0x63, 0x6F, 0x6E, 0, 0, 0, 0, 0x10, 0, 0, 0,
            0, 0, 0, 0]) (0x8 + n * 0x10))) ∧
    iconReadPos 0x4000 0x10 = 0x4000 + 0x10 + 0x200 ∧
    (∀ (sd ch ehh sth : List Nat) (enc ka ig : Bool),
      findIconOffset
        ([0x62, 0x61, 0x6E, 0x6E, 0x65, 0x72, 0, 0, 0x44, 0x33, 0x22, 0x11,
          0, 0, 0, 0, 0x69, 0x63, 0x6F, 0x6E, 0, 0, 0, 0, 0x10, 0, 0, 0,
          0, 0, 0, 0]) = none →
      convertOutcome sd ch enc ka ehh sth ig
        ([0x62, 0x61, 0x6E, 0x6E, 0x65, 0x72, 0, 0, 0x44, 0x33, 0x22, 0x11,
          0, 0, 0, 0, 0x69, 0x63, 0x6F, 0x6E, 0, 0, 0, 0, 0x10, 0, 0, 0,
          0, 0, 0, 0]) ≠ none) :=
  icon_extraction_amended
    [0x62, 0x61, 0x6E, 0x6E, 0x65, 0x72, 0, 0, 0x44, 0x33, 0x22, 0x11,
      0, 0, 0, 0, 0x69, 0x63, 0x6F, 0x6E, 0, 0, 0, 0, 0x10, 0, 0, 0,
      0, 0, 0, 0] 0x4000 0x10

/-- Title-metadata parameters, embedded from 3dsconv.py:
`content_count = 1; tmd_size = 0xB34; content_index = 0b10000000`, with
`+= 1`, `+= 0x30`, `+= 0b01000000` when `manual_cfa_offset != 0` and
`+= 1`, `+= 0x30`, `+= 0b00100000` when `dlpchild_cfa_offset != 0`.
Returns (content count, tmd size, content-presence bitmask). -/
def tmdParams (manual_cfa_offset dlpchild_cfa_offset : Nat) : Nat × Nat × Nat :=
  let p0 : Nat × Nat × Nat := (1, 0xB34, 0b10000000)
  let p1 := if manual_cfa_offset ≠ 0 then
    (p0.1 + 1, p0.2.1 + 0x30, p0.2.2 + 0b01000000) else p0
  if dlpchild_cfa_offset ≠ 0 then
    (p1.1 + 1, p1.2.1 + 0x30, p1.2.2 + 0b00100000) else p1

/-- Big-endian 32-bit serialisation, as `struct.pack('>I', n)`. -/
def packU32BE (n : Nat) : List Nat :=
  [n / 2 ^ 24 % 256, n / 2 ^ 16 % 256, n / 2 ^ 8 % 256, n % 256]

/-- One 0x30-byte chunk record, embedded from 3dsconv.py:
`struct.pack('>III', cid, cidx, 0) + struct.pack('>I', size) + bytes(0x20)`
(the 0x20-byte SHA-256 field is filled in after streaming). -/
def chunkRecord (cid cidx size : Nat) : List Nat :=
  packU32BE cid ++ packU32BE cidx ++ packU32BE 0 ++ packU32BE size ++
    List.replicate 0x20 0

/-- The chunk-record table as first written, embedded from 3dsconv.py:
the executable record (ID 0, index 0), then — when the corresponding
partition offset is nonzero — the manual record (ID 1, index 0x10000) and
the download-play-child record (ID 2, index 0x20000). -/
def chunkRecords (game_cxi_size manual_cfa_offset manual_cfa_size
    dlpchild_cfa_offset dlpchild_cfa_size : Nat) : List Nat :=
  chunkRecord 0 0 game_cxi_size ++
  (if manual_cfa_offset ≠ 0 then chunkRecord 1 0x10000 manual_cfa_size else []) ++
  (if dlpchild_cfa_offset ≠ 0 then chunkRecord 2 0x20000 dlpchild_cfa_size else [])

/-- Length of a chunk record is 0x30 bytes. -/
theorem chunkRecord_length (cid cidx size : Nat) :
    (chunkRecord cid cidx size).length = 0x30 := by
  simp [chunkRecord, packU32BE]

/-- C5: with neither manual nor download-play-child partition the content
count is 1, the title-metadata size is 0xB34 and the presence bitmask is
exactly 0x80, and the table holds only the executable record; each present
optional partition adds 0x30 to the metadata size and 1 to the content
count; the manual partition sets bitmask bit 0x40 and its chunk record
(placed right after the 0x30-byte executable record) holds content ID 1
and content index 0x10000; with all three present the records are ordered
executable (ID 0, index 0), manual, download-play-child. -/
theorem tmd_and_chunk_records (gs mo ms dlo ds : Nat) :
    tmdParams 0 0 = (1, 0xB34, 0x80) ∧
    chunkRecords gs 0 ms 0 ds = chunkRecord 0 0 gs ∧
    (tmdParams mo dlo).1 =
      1 + (if mo ≠ 0 then 1 else 0) + (if dlo ≠ 0 then 1 else 0) ∧
    (tmdParams mo dlo).2.1 =
      0xB34 + 0x30 * ((if mo ≠ 0 then 1 else 0) + (if dlo ≠ 0 then 1 else 0)) ∧
    (tmdParams mo dlo).2.2 =
      0x80 + (if mo ≠ 0 then 0x40 else 0) + (if dlo ≠ 0 then 0x20 else 0) ∧
    (mo ≠ 0 →
      ((chunkRecords gs mo ms dlo ds).drop 0x30).take 4 = packU32BE 1 ∧
      (((chunkRecords gs mo ms dlo ds).drop 0x30).drop 4).take 4 =
        packU32BE 0x10000) ∧
    (mo ≠ 0 → dlo ≠ 0 →
      chunkRecords gs mo ms dlo ds =
        chunkRecord 0 0 gs ++ chunkRecord 1 0x10000 ms ++
          chunkRecord 2 0x20000 ds) := by
  refine ⟨rfl, by simp [chunkRecords], ?_, ?_, ?_, ?_, ?_⟩
  · by_cases hm : mo ≠ 0 <;> by_cases hd : dlo ≠ 0 <;> simp [tmdParams, hm, hd]
  · by_cases hm : mo ≠ 0 <;> by_cases hd : dlo ≠ 0 <;> simp [tmdParams, hm, hd]
  · by_cases hm : mo ≠ 0 <;> by_cases hd : dlo ≠ 0 <;> simp [tmdParams, hm, hd]
  · intro hm
    have hdrop : (chunkRecords gs mo ms dlo ds).drop 0x30 =
        chunkRecord 1 0x10000 ms ++
          (if dlo ≠ 0 then chunkRecord 2 0x20000 ds else []) := by
      rw [chunkRecords, if_pos hm, List.append_assoc]
      exact List.drop_left' (chunkRecord_length 0 0 gs)
    constructor
    · rw [hdrop, chunkRecord, List.append_assoc, List.append_assoc,
        List.append_assoc, List.append_assoc]
      exact List.take_left' (by simp [packU32BE])
    · rw [hdrop, chunkRecord, List.append_assoc, List.append_assoc,
        List.append_assoc, List.append_assoc,
        List.drop_left' (by simp [packU32BE] : (packU32BE 1).length = 4)]
      exact List.take_left' (by simp [packU32BE])
  · intro hm hd
    rw [chunkRecords, if_pos hm, if_pos hd]

/-- Witness for C5 at concrete partition sizes (all three present). -/
theorem tmd_and_chunk_records_witness :
    tmdParams 0 0 = (1, 0xB34, 0x80) ∧
    chunkRecords 0x1000 0 0x200 0 0x400 = chunkRecord 0 0 0x1000 ∧
    (tmdParams 0x800 0x900).1 =
      1 + (if (0x800 : Nat) ≠ 0 then 1 else 0) +
        (if (0x900 : Nat) ≠ 0 then 1 else 0) ∧
    (tmdParams 0x800 0x900).2.1 =
      0xB34 + 0x30 * ((if (0x800 : Nat) ≠ 0 then 1 else 0) +
        (if (0x900 : Nat) ≠ 0 then 1 else 0)) ∧
    (tmdParams 0x800 0x900).2.2 =
      0x80 + (if (0x800 : Nat) ≠ 0 then 0x40 else 0) +
        (if (0x900 : Nat) ≠ 0 then 0x20 else 0) ∧
    ((0x800 : Nat) ≠ 0 →
      ((chunkRecords 0x1000 0x800 0x200 0x900 0x400).drop 0x30).take 4 =
        packU32BE 1 ∧
      (((chunkRecords 0x1000 0x800 0x200 0x900 0x400).drop 0x30).drop 4).take 4 =
        packU32BE 0x10000) ∧
    ((0x800 : Nat) ≠ 0 → (0x900 : Nat) ≠ 0 →
      chunkRecords 0x1000 0x800 0x200 0x900 0x400 =
        chunkRecord 0 0 0x1000 ++ chunkRecord 1 0x10000 0x200 ++
          chunkRecord 2 0x20000 0x400) :=
  tmd_and_chunk_records 0x1000 0x800 0x200 0x900 0x400

/-- Length is preserved by an in-range, length-matching slice assignment. -/
theorem splice_length {l repl : List Nat} {start stop : Nat}
    (h1 : start + repl.length = stop) (h2 : stop ≤ l.length) :
    (splice l start stop repl).length = l.length := by
  rw [splice]
  simp only [List.length_append, List.length_take, List.length_drop]
  omega

/-- A slice assignment leaves the bytes before `start` unchanged. -/
theorem splice_take {l repl : List Nat} {start stop : Nat} (h : start ≤ l.length) :
    (splice l start stop repl).take start = l.take start := by
  rw [splice, List.append_assoc]
  exact List.take_left' (by rw [List.length_take]; exact Nat.min_eq_left h)

/-- Reading back the assigned slice returns the replacement bytes. -/
theorem splice_extract (l repl : List Nat) (start stop : Nat) (h : start ≤ l.length) :
    ((splice l start stop repl).drop start).take repl.length = repl := by
  rw [splice, List.append_assoc,
    List.drop_left' (by rw [List.length_take]; exact Nat.min_eq_left h)]
  exact List.take_left' rfl

/-- Two lists agreeing on their first `c` elements agree on any inner
segment that ends at or before `c`. -/
theorem segment_take_eq {l l' : List Nat} {c : Nat} (h : l.take c = l'.take c)
    (a b : Nat) (hab : a + b ≤ c) : (l.drop a).take b = (l'.drop a).take b := by
  have h2 : l.take (a + b) = l'.take (a + b) := by
    have h3 := congrArg (List.take (a + b)) h
    rwa [List.take_take, List.take_take, Nat.min_eq_left hab] at h3
  rw [List.take_drop, List.take_drop, h2]

/-- Chunk-record digests filled in after streaming, embedded from
3dsconv.py: `chunk_records[0x10:0x30] = list(game_cxi_hash.digest())`;
when the manual partition is present
`chunk_records[0x40:0x60] = list(manual_cfa_hash.digest())` and
`cr_offset += 0x30`; when the download-play-child partition is present
`chunk_records[0x40 + cr_offset:0x60 + cr_offset] = list(dlpchild_cfa_hash.digest())`. -/
def filledChunkRecords (records game_hash : List Nat) (has_manual : Bool)
    (manual_hash : List Nat) (has_dlp : Bool) (dlp_hash : List Nat) : List Nat :=
  let r1 := splice records 0x10 0x30 game_hash
  let r2 := if has_manual then splice r1 0x40 0x60 manual_hash else r1
  let cr := if has_manual then 0x30 else 0
  if has_dlp then splice r2 (0x40 + cr) (0x60 + cr) dlp_hash else r2

/-- Content-info digest written at destination offset 0x2FA4, embedded
from 3dsconv.py:
`info_records_hash = hashlib.sha256(bytes(3) + bytes([content_count]) +
chunk_records_hash.digest() + bytes(0x8DC))` where
`chunk_records_hash = hashlib.sha256(bytes(chunk_records))` is computed
over the chunk-record table after the digests were filled in. -/
def contentInfoDigest (sha : List Nat → List Nat) (content_count : Nat)
    (filled_records : List Nat) : List Nat :=
  sha (List.replicate 3 0 ++ [content_count] ++ sha filled_records ++
    List.replicate 0x8DC 0)

/-- C6: the content-info digest equals SHA-256 of (3-byte zero prefix ++
content-count byte ++ chunk-record-table digest ++ 0x8DC zero bytes),
where the table digest is SHA-256 of the chunk-record table with the
per-content digests filled in — here exhibited for the all-three-contents
case: the filled table of length 0x90 carries the executable digest at
0x10, the manual digest at 0x40 and the download-play-child digest at
0x70. -/
theorem content_info_digest_structure (sha : List Nat → List Nat)
    (records gh mh dh : List Nat) (count : Nat)
    (hrec : records.length = 0x90) (hgh : gh.length = 0x20)
    (hmh : mh.length = 0x20) (hdh : dh.length = 0x20) :
    contentInfoDigest sha count (filledChunkRecords records gh true mh true dh) =
      sha (List.replicate 3 0 ++ [count] ++
        sha (filledChunkRecords records gh true mh true dh) ++
        List.replicate 0x8DC 0) ∧
    ((filledChunkRecords records gh true mh true dh).drop 0x10).take 0x20 = gh ∧
    ((filledChunkRecords records gh true mh true dh).drop 0x40).take 0x20 = mh ∧
    ((filledChunkRecords records gh true mh true dh).drop 0x70).take 0x20 = dh ∧
    (filledChunkRecords records gh true mh true dh).length = 0x90 := by
  have hfill : filledChunkRecords records gh true mh true dh =
      splice (splice (splice records 0x10 0x30 gh) 0x40 0x60 mh) 0x70 0x90 dh := by
    simp [filledChunkRecords]
  have hr1len : (splice records 0x10 0x30 gh).length = 0x90 := by
    rw [splice_length (by omega) (by omega)]
    exact hrec
  have hr2len : (splice (splice records 0x10 0x30 gh) 0x40 0x60 mh).length = 0x90 := by
    rw [splice_length (by omega) (by omega)]
    exact hr1len
  have hr3len :
      (splice (splice (splice records 0x10 0x30 gh) 0x40 0x60 mh) 0x70 0x90 dh).length =
        0x90 := by
    rw [splice_length (by omega) (by omega)]
    exact hr2len
  have htake3 :
      (splice (splice (splice records 0x10 0x30 gh) 0x40 0x60 mh) 0x70 0x90 dh).take 0x70 =
        (splice (splice records 0x10 0x30 gh) 0x40 0x60 mh).take 0x70 :=
    splice_take (by omega)
  have htake2 :
      (splice (splice records 0x10 0x30 gh) 0x40 0x60 mh).take 0x40 =
        (splice records 0x10 0x30 gh).take 0x40 :=
    splice_take (by omega)
  refine ⟨rfl, ?_, ?_, ?_, ?_⟩
  · rw [hfill]
    rw [segment_take_eq htake3 0x10 0x20 (by norm_num),
      segment_take_eq htake2 0x10 0x20 (by norm_num)]
    have h := splice_extract records gh 0x10 0x30 (by omega)
    rwa [hgh] at h
  · rw [hfill]
    rw [segment_take_eq htake3 0x40 0x20 (by norm_num)]
    have h := splice_extract (splice records 0x10 0x30 gh) mh 0x40 0x60 (by omega)
    rwa [hmh] at h
  · rw [hfill]
    have h := splice_extract (splice (splice records 0x10 0x30 gh) 0x40 0x60 mh)
      dh 0x70 0x90 (by omega)
    rwa [hdh] at h
  · rw [hfill]
    exact hr3len

/-- Witness for C6 at concrete inputs. -/
theorem content_info_digest_structure_witness :
    (List.replicate 0x90 9).length = 0x90 ∧
    (List.replicate 0x20 1).length = 0x20 ∧
    (List.replicate 0x20 2).length = 0x20 ∧
    (List.replicate 0x20 3).length = 0x20 ∧
    (contentInfoDigest (fun _ => List.replicate 0x20 4) 3
        (filledChunkRecords (List.replicate 0x90 9) (List.replicate 0x20 1) true
          (List.replicate 0x20 2) true (List.replicate 0x20 3)) =
      (fun _ : List Nat => List.replicate 0x20 4)
        (List.replicate 3 0 ++ [3] ++
          (fun _ : List Nat => List.replicate 0x20 4)
            (filledChunkRecords (List.replicate 0x90 9) (List.replicate 0x20 1) true
              (List.replicate 0x20 2) true (List.replicate 0x20 3)) ++
          List.replicate 0x8DC 0) ∧
    ((filledChunkRecords (List.replicate 0x90 9) (List.replicate 0x20 1) true
        (List.replicate 0x20 2) true (List.replicate 0x20 3)).drop 0x10).take 0x20 =
      List.replicate 0x20 1 ∧
    ((filledChunkRecords (List.replicate 0x90 9) (List.replicate 0x20 1) true
        (List.replicate 0x20 2) true (List.replicate 0x20 3)).drop 0x40).take 0x20 =
      List.replicate 0x20 2 ∧
    ((filledChunkRecords (List.replicate 0x90 9) (List.replicate 0x20 1) true
        (List.replicate 0x20 2) true (List.replicate 0x20 3)).drop 0x70).take 0x20 =
      List.replicate 0x20 3 ∧
    (filledChunkRecords (List.replicate 0x90 9) (List.replicate 0x20 1) true
        (List.replicate 0x20 2) true (List.replicate 0x20 3)).length = 0x90) :=
  ⟨by simp, by simp, by simp, by simp,
    content_info_digest_structure (fun _ => List.replicate 0x20 4)
      (List.replicate 0x90 9) (List.replicate 0x20 1) (List.replicate 0x20 2)
      (List.replicate 0x20 3) 3 (by simp) (by simp) (by simp) (by simp)⟩

/-- Read chunk bound, embedded from `READ_SIZE = 0x800000` in 3dsconv.py. -/
def READ_SIZE : Nat := 0x800000

/-- Byte count of the chunked copy loop in 3dsconv.py: each pass reads
`to_read = min(READ_SIZE, left)` bytes (`left` is a Python int and may go
negative, hence `Int`), then does `left -= READ_SIZE` and stops once
`left <= 0`; `fuel` is the iteration bound
`int(math.floor(game_cxi_size / READ_SIZE)) + 1` of the enclosing
`itertools.repeat` (that float division is exact, READ_SIZE being a power
of two and sizes far below 2^53). -/
def streamBytes (R : Nat) : Nat → Int → Nat
  | 0, _ => 0
  | fuel + 1, left =>
    (min (R : Int) left).toNat +
      (if left - R ≤ 0 then 0 else streamBytes R fuel (left - R))

/-- Bytes streamed for the executable content after the 0x600-byte header
write, embedded from 3dsconv.py: `left = game_cxi_size - 0x200 - 0x400`,
reading from source offset `game_cxi_offset + 0x200 + 0x400`. -/
def streamedExecBytes (game_cxi_size : Nat) : Nat :=
  streamBytes READ_SIZE (game_cxi_size / READ_SIZE + 1)
    ((game_cxi_size : Int) - 0x200 - 0x400)

/-- The chunk loop copies exactly `left` bytes whenever `left` is positive
and the iteration budget covers it. -/
theorem streamBytes_total (R : Nat) :
    ∀ (fuel : Nat) (L : Int), 0 < L → L ≤ (fuel : Int) * (R : Int) →
      streamBytes R fuel L = L.toNat := by
  intro fuel
  induction fuel with
  | zero =>
    intro L hL hbound
    simp only [Nat.cast_zero, zero_mul] at hbound
    omega
  | succ fuel ih =>
    intro L hL hbound
    rw [streamBytes]
    by_cases h : L - (R : Int) ≤ 0
    · rw [if_pos h, min_eq_right (by omega : L ≤ (R : Int))]
      omega
    · rw [if_neg h, min_eq_left (by omega : (R : Int) ≤ L)]
      have hc : ((fuel + 1 : Nat) : Int) * (R : Int) = (fuel : Int) * R + R := by
        push_cast
        ring
      rw [hc] at hbound
      rw [ih (L - R) (by omega) (by linarith)]
      omega

/-- C10: for an executable partition of declared size above 0x600 bytes,
the 0x600 bytes of transcoded partition header plus extended header
followed by the streamed remainder total exactly the declared size; that
same value is serialised (big-endian) into the size field at offset 0xC of
the first chunk record, so the chunk record's size field matches the bytes
actually written. -/
theorem exec_content_size_invariant (game_cxi_size mo ms dlo ds : Nat)
    (h6 : 0x600 < game_cxi_size) (h32 : game_cxi_size < 2 ^ 32) :
    0x600 + streamedExecBytes game_cxi_size = game_cxi_size ∧
    bytesToNatBE (packU32BE game_cxi_size) = game_cxi_size ∧
    ((chunkRecords game_cxi_size mo ms dlo ds).drop 0xC).take 4 =
      packU32BE game_cxi_size := by
  refine ⟨?_, ?_, ?_⟩
  · have hRpos : 0 < READ_SIZE := by rw [READ_SIZE]; norm_num
    have hdm := Nat.div_add_mod game_cxi_size READ_SIZE
    have hmod := Nat.mod_lt game_cxi_size hRpos
    have hlt : game_cxi_size < (game_cxi_size / READ_SIZE + 1) * READ_SIZE := by
      have hr : (game_cxi_size / READ_SIZE + 1) * READ_SIZE =
          READ_SIZE * (game_cxi_size / READ_SIZE) + READ_SIZE := by ring
      rw [hr]
      omega
    have hLpos : (0 : Int) < (game_cxi_size : Int) - 0x200 - 0x400 := by
      omega
    have hbound : (game_cxi_size : Int) - 0x200 - 0x400 ≤
        ((game_cxi_size / READ_SIZE + 1 : Nat) : Int) * (READ_SIZE : Int) := by
      have := hlt
      push_cast
      push_cast at this
      linarith
    rw [streamedExecBytes, streamBytes_total READ_SIZE _ _ hLpos hbound]
    omega
  · simp only [packU32BE, bytesToNatBE, List.foldl_cons, List.foldl_nil]
    omega
  · have hsplit : chunkRecords game_cxi_size mo ms dlo ds =
        ([0, 0, 0, 0, 0, 0, 0, 0, 0, 0, 0, 0] : List Nat) ++
          (packU32BE game_cxi_size ++ (List.replicate 0x20 0 ++
            ((if mo ≠ 0 then chunkRecord 1 0x10000 ms else []) ++
             (if dlo ≠ 0 then chunkRecord 2 0x20000 ds else [])))) := by
      rw [chunkRecords, chunkRecord]
      have hp : packU32BE 0 = [0, 0, 0, 0] := rfl
      rw [hp]
      simp only [List.append_assoc, List.cons_append, List.nil_append]
    rw [hsplit,
      List.drop_left' (by rfl : ([0, 0, 0, 0, 0, 0, 0, 0, 0, 0, 0, 0] : List Nat).length = 0xC)]
    exact List.take_left' (by simp [packU32BE])

/-- Witness for C10 at a concrete size larger than one read chunk. -/
theorem exec_content_size_invariant_witness :
    0x600 < 0x900000 ∧ (0x900000 : Nat) < 2 ^ 32 ∧
    (0x600 + streamedExecBytes 0x900000 = 0x900000 ∧
    bytesToNatBE (packU32BE 0x900000) = 0x900000 ∧
    ((chunkRecords 0x900000 1 0x200 0 0).drop 0xC).take 4 =
      packU32BE 0x900000) :=
  ⟨by norm_num, by norm_num,
    exec_content_size_invariant 0x900000 1 0x200 0 0 (by norm_num) (by norm_num)⟩

end ThreeDSConv
